import Mathlib

/-!
Verification of the Rely AI decision-orchestration engine against its
specification. The backend orchestration code (FastAPI `process_decision`,
`call_model`, retry helpers, artifact writing) is documented by
`specs/evaluator.md` and the backend README but is not part of the
repository snapshot, so those components are modelled from the
specification's words; `backend/start.sh` and the frontend XML request
builder are embedded directly from their sources.

Definitions come first, theorems after them.
-/

set_option autoImplicit false

namespace RelyAI

/-- Modelled from the spec (§4.2, §7): the error taxonomy of the Provider
Capability Gateway. A per-attempt timeout surfaces as `timeout`. -/
inductive GatewayError
  | authenticationError
  | rateLimited
  | providerUnavailable
  | invalidRequest
  | unknownProvider
  | timeout
deriving DecidableEq, Repr

/-- Modelled from the spec (§4.3, §7): `RateLimited`, `ProviderUnavailable`
and timeout are the transient error kinds; all others are non-transient. -/
def GatewayError.transient : GatewayError → Bool
  | .rateLimited => true
  | .providerUnavailable => true
  | .timeout => true
  | .authenticationError => false
  | .invalidRequest => false
  | .unknownProvider => false

/-- Short name for an error, as recorded in a run's Failed reason. -/
def GatewayError.describe : GatewayError → String
  | .authenticationError => "AuthenticationError"
  | .rateLimited => "RateLimited"
  | .providerUnavailable => "ProviderUnavailable"
  | .invalidRequest => "InvalidRequest"
  | .unknownProvider => "UnknownProvider"
  | .timeout => "Timeout"

/-- Modelled from the spec (§4.3): the Retrying Invoker's terminal result,
`Success{text}` or `Failure{lastError, attemptsUsed}`, carrying the number
of attempts actually performed. -/
inductive InvokeResult
  | success (text : String) (attempts : Nat)
  | failure (lastError : GatewayError) (attempts : Nat)
deriving DecidableEq, Repr

def InvokeResult.attempts : InvokeResult → Nat
  | .success _ a => a
  | .failure _ a => a

def InvokeResult.isSuccess : InvokeResult → Bool
  | .success _ _ => true
  | .failure _ _ => false

def InvokeResult.textOrEmpty : InvokeResult → String
  | .success t _ => t
  | .failure _ _ => ""

/-- Modelled from the spec (§4.3 Retrying Invoker; the backend Python is
absent from the repository files): the gateway call thunk is modelled as a
function from the 0-based attempt index to that attempt's outcome.
`retryAux gw k remaining` performs attempt `k` and, on a transient error
with attempts still remaining, recurses; on a non-transient error or
success it stops at once. Backoff delays affect timing only, not the
result value, so they are not modelled. -/
def retryAux (gw : Nat → Except GatewayError String) (attemptIdx : Nat) :
    Nat → InvokeResult
  | 0 => .failure .providerUnavailable attemptIdx
  | remaining + 1 =>
    match gw attemptIdx with
    | .ok t => .success t (attemptIdx + 1)
    | .error e =>
      if e.transient = true ∧ remaining ≠ 0 then
        retryAux gw (attemptIdx + 1) remaining
      else .failure e (attemptIdx + 1)

/-- Configuration default from the backend README configuration table:
`MAX_RETRIES` — maximum retry attempts for failed requests — defaults to 3. -/
def MAX_RETRIES : Nat := 3

/-- Modelled from the spec (§4.3): run a gateway call with at most
`maxAttempts` attempts. -/
def retryInvoke (gw : Nat → Except GatewayError String) (maxAttempts : Nat) :
    InvokeResult :=
  retryAux gw 0 maxAttempts

/-- Modelled from the spec (§3): a parsed model reference — a base model
name (the provider-routing key) plus an optional capability modifier. -/
structure ModelReference where
  base : String
  modifier : Option String
deriving DecidableEq, Repr

/-- The original string form of a model reference, used as the anonymized
label of board results and in artifact file names. -/
def ModelReference.raw (m : ModelReference) : String :=
  match m.modifier with
  | none => m.base
  | some md => m.base ++ ":" ++ md

/-- Modelled from the spec (§7): the Model Reference Parser's only failure. -/
inductive ParseError
  | invalidModelReference
deriving DecidableEq, Repr

/-- Boolean prefix test on character lists, structurally recursive so that
concrete instances evaluate inside the kernel. -/
def charsStartWith : List Char → List Char → Bool
  | _, [] => true
  | [], _ :: _ => false
  | c :: cs, d :: ds => c == d && charsStartWith cs ds

/-- Modelled from the spec (§2, §4.1) and the backend README: the
effort-tunable family is the OpenAI reasoning models (o3, o4-mini and the
like), whose recognized modifiers are the effort levels low, medium, high. -/
def isEffortTunable (base : String) : Bool :=
  charsStartWith base.data "o3".data || charsStartWith base.data "o4".data

def isEffortLevel (m : String) : Bool :=
  m == "low" || m == "medium" || m == "high"

/-- Modelled from the spec (§2, §4.1) and the backend README: the
budget-tunable family is claude-3-7-sonnet, whose recognized modifiers are
thinking-budget sizes written as digits followed by `k` (1k, 4k, 16k, …). -/
def isBudgetTunable (base : String) : Bool :=
  charsStartWith base.data "claude-3-7-sonnet".data

/-- Accepts one or more digits followed by a final `k`. -/
def digitsThenK : List Char → Bool
  | [] => false
  | [c] => c == 'k'
  | c :: cs => c.isDigit && digitsThenK cs

def isBudgetModifier (m : String) : Bool :=
  decide (2 ≤ m.data.length) && digitsThenK m.data

/-- Modelled from the spec (§4.1): a suffix is a recognized modifier exactly
when it belongs to the modifier vocabulary of the base's family. -/
def recognizedModifier (base m : String) : Bool :=
  (isEffortTunable base && isEffortLevel m)
  || (isBudgetTunable base && isBudgetModifier m)

/-- Splits a character list at its last colon: `some (pre, suf)` with the
input equal to `pre ++ ':' :: suf` and `suf` colon-free, or `none` when no
colon occurs. -/
def splitLastColon : List Char → Option (List Char × List Char)
  | [] => none
  | c :: cs =>
    match splitLastColon cs with
    | some (pre, suf) => some (c :: pre, suf)
    | none => if c = ':' then some ([], cs) else none

/-- Modelled from the spec (§4.1 Model Reference Parser; the backend Python
is absent from the repository files): split on the last colon only if the
suffix is a recognized modifier for the base's family, otherwise treat the
whole string as the base name with no modifier; fail with
InvalidModelReference only on the empty string. -/
def parseModelRef (s : String) : Except ParseError ModelReference :=
  if s = "" then .error .invalidModelReference
  else
    match splitLastColon s.data with
    | none => .ok ⟨s, none⟩
    | some (pre, suf) =>
      if recognizedModifier (String.mk pre) (String.mk suf) then
        .ok ⟨String.mk pre, some (String.mk suf)⟩
      else .ok ⟨s, none⟩

/-- Modelled from the spec (§3): a validated DecisionRequest — purpose,
ordered factor strings, ordered board model references, one CEO model
reference, free-form decision-resources text. -/
structure DecisionRequest where
  purpose : String
  factors : List String
  boardModels : List ModelReference
  ceoModel : ModelReference
  decisionResources : String
deriving DecidableEq, Repr

/-- Modelled from the spec (§3): a BoardResult — the model reference and
the settled outcome of its Retrying Invoker call (which carries the
attempts count). -/
structure BoardResult where
  modelRef : ModelReference
  outcome : InvokeResult
deriving DecidableEq, Repr

/-- The board results whose call succeeded, in their original order. -/
def successes (rs : List BoardResult) : List BoardResult :=
  rs.filter (fun r => r.outcome.isSuccess)

/-- Modelled from the spec (§4.4) and evaluator.md §5.1: the board-phase
prompt, built once from purpose, factors and decision-resources and sent
identically to every board model. -/
def buildBoardPrompt (req : DecisionRequest) : String :=
  "<purpose>" ++ req.purpose ++ "</purpose>\n<factors>\n"
    ++ String.intercalate "\n" req.factors
    ++ "\n</factors>\n<decision-resources>"
    ++ req.decisionResources ++ "</decision-resources>"

/-- The fixed leading part of the CEO-phase prompt, verbatim from the
template in evaluator.md §5.2 (purpose and instructions blocks). -/
def ceoPromptHeader : String :=
  "<purpose>\n    You are a CEO of a company. You are given a list of "
    ++ "responses from your board of directors. Your job is to take in the "
    ++ "original question prompt, and each of the board members' responses, "
    ++ "and choose the best direction for your company.\n</purpose>\n"
    ++ "<instructions>\n    <instruction>Each board member has proposed an "
    ++ "answer to the question posed in the prompt.</instruction>\n    "
    ++ "<instruction>Given the original question prompt, and each of the "
    ++ "board members' responses, choose the best answer.</instruction>\n    "
    ++ "<instruction>Tally the votes of the board members, choose the best "
    ++ "direction, and explain why you chose it.</instruction>\n    "
    ++ "<instruction>To preserve anonymity, we will use model names instead "
    ++ "of real names of your board members. When responding, use the model "
    ++ "names in your response.</instruction>\n    <instruction>As a CEO, "
    ++ "you breakdown the decision into several categories including: risk, "
    ++ "reward, timeline, and resources. In addition to these guiding "
    ++ "categories, you also consider the board members' expertise and "
    ++ "experience. As a bleeding edge CEO, you also invent new dimensions "
    ++ "of decision making to help you make the best decision for your "
    ++ "company.</instruction>\n    <instruction>Your final CEO response "
    ++ "should be in markdown format with a comprehensive explanation of "
    ++ "your decision. Start the top of the file with a title that says "
    ++ "\"CEO Decision\", include a table of contents, briefly describe the "
    ++ "question/problem at hand then dive into several sections. One of "
    ++ "your first sections should be a quick summary of your decision, "
    ++ "then breakdown each of the boards decisions into sections with your "
    ++ "commentary on each. Where we lead into your decision with the "
    ++ "categories of your decision making process, and then we lead into "
    ++ "your final decision.</instruction>\n</instructions>\n"

/-- One `board-response` element of the CEO prompt, verbatim from the
template in evaluator.md §5.2, labeled by the model's original string form
and holding the board output text interpolated as-is. -/
def renderBoardBlock (r : BoardResult) : String :=
  "    <board-response>\n        <model-name>" ++ r.modelRef.raw
    ++ "</model-name>\n        <response>" ++ r.outcome.textOrEmpty
    ++ "</response>\n    </board-response>\n"

/-- Modelled from the spec (§4.4, §4.5): the CEO prompt renders one block
per successful board result, in board order; failed board members are
excluded. -/
def ceoBoardBlocks (rs : List BoardResult) : List String :=
  (successes rs).map renderBoardBlock

/-- Concatenation of a list of strings in order (the template loop of
evaluator.md §5.2), structurally recursive. -/
def concatStrings : List String → String
  | [] => ""
  | s :: rest => s ++ concatStrings rest

/-- Modelled from the spec (§4.5 CEO Prompt Assembler) and evaluator.md
§5.2: the fan-in prompt — fixed header, the interpolated original prompt,
then the board-response blocks. A pure function of its two arguments. -/
def buildCeoPrompt (originalPrompt : String) (rs : List BoardResult) :
    String :=
  ceoPromptHeader ++ "<original-question>" ++ originalPrompt
    ++ "</original-question>\n<board-decisions>\n"
    ++ concatStrings (ceoBoardBlocks rs)
    ++ "</board-decisions>"

/-- Follows the spec's words (§4.5 escaping requirement) rather than the
source, for comparison with the source-modelled assembler: the XML entity
encoding of one character. -/
def xmlEscapeChar (c : Char) : String :=
  if c = '<' then "&lt;"
  else if c = '>' then "&gt;"
  else if c = '&' then "&amp;"
  else String.singleton c

/-- Follows the spec's words (§4.5): escape every structural markup
character of a free-text string. -/
def xmlEscape (s : String) : String :=
  concatStrings (s.data.map xmlEscapeChar)

/-- Modelled from the spec (§5, §9 design note): concurrent fan-out with
positional result slots. Each task `i` writes its settled value `f i` into
slot `i` of a pre-sized array; `order` is the order in which the tasks
happened to complete. -/
def gatherSettle {α : Type} (f : Nat → Option α) (n : Nat)
    (order : List Nat) : List (Option α) :=
  order.foldl (fun acc i => acc.set i (f i)) (List.replicate n none)

/-- The board task at position `i`: invoke the model at that position of
the input list. -/
def boardTask (invoke : ModelReference → InvokeResult)
    (models : List ModelReference) (i : Nat) : Option BoardResult :=
  (models[i]?).map (fun m => ⟨m, invoke m⟩)

/-- Modelled from the spec (§4.4 Board Fan-Out Coordinator): one task per
board model, all settled, results merged by position; `order` is the
completion order of the concurrent calls. -/
def boardFanOut (invoke : ModelReference → InvokeResult)
    (models : List ModelReference) (order : List Nat) :
    List (Option BoardResult) :=
  gatherSettle (boardTask invoke models) models.length order

/-- Modelled from the spec (§3, §4.8): run status — Pending,
BoardComplete, CeoComplete, or Failed with a stage tag and reason. -/
inductive RunStatus
  | pending
  | boardComplete
  | ceoComplete
  | failed (stage : String) (reason : String)
deriving DecidableEq, Repr

/-- Which phase a gateway call was issued from. -/
inductive CallPhase
  | board
  | ceo
deriving DecidableEq, Repr

/-- A gateway call the orchestrator issued: its phase, target model and
prompt text. -/
structure CallRecord where
  phase : CallPhase
  model : ModelReference
  prompt : String
deriving DecidableEq, Repr

/-- Modelled from the spec (§3): a DecisionRun — correlation identifier,
request, ordered board results, CEO prompt text, CEO decision outcome and
status. -/
structure DecisionRun where
  correlationId : String
  request : DecisionRequest
  boardResults : List BoardResult
  ceoPrompt : Option String
  ceoDecision : Option String
  status : RunStatus
deriving DecidableEq, Repr

/-- A finished orchestration: the terminal run value plus the list of
gateway calls that were issued while producing it. -/
structure RunOutput where
  run : DecisionRun
  calls : List CallRecord
deriving DecidableEq, Repr

/-- Modelled from the spec (§4.4): the settled board results of a request,
one Retrying Invoker call per board model, in input order. -/
def boardPhase
    (gw : ModelReference → String → Nat → Except GatewayError String)
    (maxAttempts : Nat) (req : DecisionRequest) : List BoardResult :=
  req.boardModels.map
    (fun m => BoardResult.mk m
      (retryInvoke (gw m (buildBoardPrompt req)) maxAttempts))

/-- The gateway calls the board phase issues: one per board model, all with
the identical board prompt. -/
def boardCallRecords (req : DecisionRequest) : List CallRecord :=
  req.boardModels.map (fun m => CallRecord.mk .board m (buildBoardPrompt req))

/-- Modelled from the spec (§4.4, §4.6, §4.8 `process_decision`; the
backend Python is absent from the repository files): board fan-out, then —
only when at least one board call succeeded — a single CEO fan-in call on
the prompt assembled from the board results; all board calls fail ⇒ the
run fails at stage "board" with no CEO call; a CEO failure fails the run
at stage "ceo". The gateway takes the model, the prompt and the 0-based
attempt index. -/
def processDecision
    (gw : ModelReference → String → Nat → Except GatewayError String)
    (maxAttempts : Nat) (corrId : String) (req : DecisionRequest) :
    RunOutput :=
  let results := boardPhase gw maxAttempts req
  if (successes results).isEmpty then
    ⟨⟨corrId, req, results, none, none,
        .failed "board" "AllBoardMembersFailed"⟩, boardCallRecords req⟩
  else
    let cp := buildCeoPrompt (buildBoardPrompt req) results
    match retryInvoke (gw req.ceoModel cp) maxAttempts with
    | .success t _ =>
      ⟨⟨corrId, req, results, some cp, some t, .ceoComplete⟩,
        boardCallRecords req ++ [⟨.ceo, req.ceoModel, cp⟩]⟩
    | .failure e _ =>
      ⟨⟨corrId, req, results, some cp, none, .failed "ceo" e.describe⟩,
        boardCallRecords req ++ [⟨.ceo, req.ceoModel, cp⟩]⟩

/-- Artifact file name of one successful board result (§6 layout). -/
def boardArtifactName (r : BoardResult) : String :=
  "board_" ++ r.modelRef.raw ++ ".md"

/-- Modelled from the spec (§4.7 Artifact Writer): the file names written
for a run, in write order — one per successful board result, then the CEO
prompt, then, last, the CEO decision. A run that did not complete writes
nothing (§4.6: no decision artifact on CEO failure; §4.8: a board-stage
failure never reaches the artifact-write phase). -/
def writeSequence (run : DecisionRun) : List String :=
  match run.status with
  | .ceoComplete =>
    (successes run.boardResults).map boardArtifactName
      ++ ["ceo_prompt.xml", "ceo_decision.md"]
  | _ => []

/-- Modelled from the spec (§3, §6): the correlation identifier of the
request with per-process sequence number `seq`. The spec leaves the format
unconstrained (filesystem-safe and collision-resistant); the fresh-token
generator is modelled as an injective encoding of the sequence number over
a safe alphabet. -/
def genCorrelationId (seq : Nat) : String :=
  String.mk (List.replicate (seq + 1) 'u')

/-- Modelled from the spec (§6): a run's artifact directory,
`<output-root>/<correlation-id>`. -/
def runDirectory (outputRoot corrId : String) : String :=
  outputRoot ++ "/" ++ corrId

/-- Embedding of `handleSubmit` in `frontend/app/page.tsx`: the request
XML is assembled by direct template-string interpolation of the user's
purpose, factors, model names and resources, with no escaping. -/
def frontendRequestXml (purpose : String) (factors : List String)
    (boardModels : List String) (ceoModel : String)
    (decisionResources : String) : String :=
  let boardXML := String.join
    (boardModels.map (fun m => "<model name=\"" ++ m ++ "\" />"))
  let factorsText := String.intercalate "\n"
    (factors.filter (fun f => f ≠ ""))
  "<root><purpose>" ++ purpose ++ "</purpose><factors>" ++ factorsText
    ++ "</factors><board-models>" ++ boardXML
    ++ "</board-models><ceo-model name=\"" ++ ceoModel
    ++ "\" /><decision-resources>" ++ decisionResources
    ++ "</decision-resources></root>"

/-- Outcome of running `backend/start.sh`: either the script exits with a
status code after printing an error, or it reaches the `uvicorn` line and
starts the server. -/
inductive StartOutcome
  | exited (code : Nat) (message : String)
  | serverStarted
deriving DecidableEq, Repr

/-- The process environment as seen by `backend/start.sh`: each variable is
either unset (`none`) or set to a string (possibly empty). -/
structure ShellEnv where
  openaiApiKey : Option String
  anthropicApiKey : Option String
  geminiApiKey : Option String
deriving DecidableEq, Repr

/-- Embedding of the shell test `[ -z "$VAR" ]`, which is true when the
variable is unset or set to the empty string. -/
def isUnsetOrEmpty (v : Option String) : Bool := v.getD "" = ""

/-- Embedding of `backend/start.sh`: check `OPENAI_API_KEY`, then
`ANTHROPIC_API_KEY`, exiting with status 1 on a missing key; otherwise start
the server. `GEMINI_API_KEY` is not read anywhere in the script. -/
def startSh (env : ShellEnv) : StartOutcome :=
  if isUnsetOrEmpty env.openaiApiKey then
    .exited 1 "Error: OPENAI_API_KEY environment variable must be set."
  else if isUnsetOrEmpty env.anthropicApiKey then
    .exited 1 "Error: ANTHROPIC_API_KEY environment variable must be set."
  else
    .serverStarted

/-- Test double: a gateway whose every call succeeds with the text
"DECISION" (cf. the spec §8 end-to-end scenario). -/
def okGw : ModelReference → String → Nat → Except GatewayError String :=
  fun _ _ _ => .ok "DECISION"

/-- Test double: a gateway whose every call fails non-transiently. -/
def failGw : ModelReference → String → Nat → Except GatewayError String :=
  fun _ _ _ => .error .authenticationError

/-- Concrete request used to instantiate theorems, after the spec §8
end-to-end scenario. -/
def demoRequest : DecisionRequest :=
  ⟨"Should we enter the EV market?", ["Market growth", "Competition"],
    [⟨"gpt-4o", none⟩, ⟨"claude-x", none⟩], ⟨"gemini-y", none⟩,
    "Industry reports"⟩

/-! Theorems. -/

lemma gatherSettle_foldl_getElem {α : Type} (f : Nat → Option α)
    (order : List Nat) :
    ∀ (acc : List (Option α)) (j : Nat), j < acc.length →
      (order.foldl (fun a i => a.set i (f i)) acc)[j]? =
        if j ∈ order then some (f j) else acc[j]? := by
  induction order with
  | nil => intro acc j _; simp
  | cons i rest ih =>
    intro acc j hj
    have hlen : j < (acc.set i (f i)).length := by
      simpa [List.length_set] using hj
    have hstep := ih (acc.set i (f i)) j hlen
    simp only [List.foldl_cons]
    rw [hstep]
    by_cases hjr : j ∈ rest
    · rw [if_pos hjr, if_pos (by simp [hjr])]
    · rw [if_neg hjr, List.getElem?_set]
      by_cases hij : i = j
      · subst hij
        rw [if_pos rfl, if_pos hj, if_pos (by simp)]
      · rw [if_neg hij, if_neg (by simp [List.mem_cons, hjr, Ne.symm hij])]

lemma gatherSettle_foldl_length {α : Type} (f : Nat → Option α)
    (order : List Nat) :
    ∀ acc : List (Option α),
      (order.foldl (fun a i => a.set i (f i)) acc).length = acc.length := by
  induction order with
  | nil => intro acc; rfl
  | cons i rest ih =>
    intro acc
    simp only [List.foldl_cons]
    rw [ih (acc.set i (f i)), List.length_set]

lemma gatherSettle_eq {α : Type} (f : Nat → Option α) (n : Nat)
    (order : List Nat) (hc : ∀ i, i < n → i ∈ order) :
    gatherSettle f n order = (List.range n).map f := by
  apply List.ext_getElem?
  intro j
  by_cases hj : j < n
  · rw [gatherSettle,
      gatherSettle_foldl_getElem f order (List.replicate n none) j
        (by simpa using hj),
      if_pos (hc j hj), List.getElem?_map, List.getElem?_range hj]
    rfl
  · rw [List.getElem?_len_le, List.getElem?_len_le]
    · simpa using Nat.le_of_not_lt hj
    · rw [gatherSettle, gatherSettle_foldl_length]
      simpa using Nat.le_of_not_lt hj

lemma range_map_boardTask (invoke : ModelReference → InvokeResult)
    (models : List ModelReference) :
    (List.range models.length).map (boardTask invoke models) =
      models.map (fun m => some ⟨m, invoke m⟩) := by
  apply List.ext_getElem?
  intro j
  by_cases hj : j < models.length
  · rw [List.getElem?_map, List.getElem?_range hj, List.getElem?_map,
      List.getElem?_eq_getElem hj]
    simp [boardTask, List.getElem?_eq_getElem hj]
  · rw [List.getElem?_len_le (by simpa using Nat.le_of_not_lt hj),
      List.getElem?_len_le (by simpa using Nat.le_of_not_lt hj)]

lemma processDecision_boardResults
    (gw : ModelReference → String → Nat → Except GatewayError String)
    (maxAttempts : Nat) (corrId : String) (req : DecisionRequest) :
    (processDecision gw maxAttempts corrId req).run.boardResults =
      boardPhase gw maxAttempts req := by
  simp only [processDecision]
  split
  · rfl
  · split <;> rfl

/-- C1: the Board Fan-Out Coordinator's output has the same length as the
input board-model list and its entry at every position i is the settled
result of the model at position i, for every completion order of the
concurrent calls; accordingly, in a run that reaches a successful CEO call
the board-result list matches the input model list in length and position
by position. -/
theorem claim_C1_board_fanout_order :
    (∀ (invoke : ModelReference → InvokeResult)
        (models : List ModelReference) (order : List Nat),
        (∀ i, i < models.length → i ∈ order) →
        boardFanOut invoke models order =
          models.map (fun m => some ⟨m, invoke m⟩))
    ∧ (∀ gw maxAttempts corrId req,
        (processDecision gw maxAttempts corrId req).run.status =
          .ceoComplete →
        (processDecision gw maxAttempts corrId req).run.boardResults.length =
            req.boardModels.length
        ∧ ∀ i, i < req.boardModels.length →
            ((processDecision gw maxAttempts corrId req).run.boardResults.map
              BoardResult.modelRef)[i]? = req.boardModels[i]?) := by
  constructor
  · intro invoke models order hc
    rw [boardFanOut, gatherSettle_eq (boardTask invoke models) models.length
      order hc, range_map_boardTask]
  · intro gw maxAttempts corrId req _
    rw [processDecision_boardResults, boardPhase]
    constructor
    · rw [List.length_map]
    · intro i hi
      rw [List.map_map, List.getElem?_map, List.getElem?_eq_getElem hi]
      rfl

/-- C1 witness: with two board models and the second call completing before
the first, the fan-out output still lists the first model's result first;
and a concrete successful run has one board result per input model, in
order. -/
theorem claim_C1_witness :
    boardFanOut (fun m => .success m.base 1)
        [⟨"gpt-4o", none⟩, ⟨"claude-x", none⟩] [1, 0] =
      [some ⟨⟨"gpt-4o", none⟩, .success "gpt-4o" 1⟩,
        some ⟨⟨"claude-x", none⟩, .success "claude-x" 1⟩]
    ∧ (processDecision okGw 3 "u" demoRequest).run.boardResults.length = 2
    ∧ ((processDecision okGw 3 "u" demoRequest).run.boardResults.map
        BoardResult.modelRef)[0]? = demoRequest.boardModels[0]? := by
  refine ⟨?_, ?_, ?_⟩
  · exact (claim_C1_board_fanout_order.1 (fun m => .success m.base 1)
      [⟨"gpt-4o", none⟩, ⟨"claude-x", none⟩] [1, 0] (by decide)).trans
      (by rfl)
  · exact (claim_C1_board_fanout_order.2 okGw 3 "u" demoRequest
      (by rfl)).1.trans (by rfl)
  · exact (claim_C1_board_fanout_order.2 okGw 3 "u" demoRequest
      (by rfl)).2 0 (by decide)

lemma retryAux_ok (gw : Nat → Except GatewayError String) (k n : Nat)
    (t : String) (hg : gw k = .ok t) :
    retryAux gw k (n + 1) = .success t (k + 1) := by
  simp [retryAux, hg]

lemma retryAux_nontransient (gw : Nat → Except GatewayError String)
    (k n : Nat) (e : GatewayError) (hg : gw k = .error e)
    (he : e.transient = false) :
    retryAux gw k (n + 1) = .failure e (k + 1) := by
  simp [retryAux, hg, he]

lemma retryAux_last (gw : Nat → Except GatewayError String) (k : Nat)
    (e : GatewayError) (hg : gw k = .error e) :
    retryAux gw k 1 = .failure e (k + 1) := by
  simp [retryAux, hg]

lemma retryAux_retry (gw : Nat → Except GatewayError String) (k n : Nat)
    (e : GatewayError) (hg : gw k = .error e) (he : e.transient = true) :
    retryAux gw k (n + 2) = retryAux gw (k + 1) (n + 1) := by
  conv_lhs => rw [retryAux]
  simp [hg, he]

lemma retryAux_attempts_le (gw : Nat → Except GatewayError String) :
    ∀ n k, (retryAux gw k n).attempts ≤ k + n := by
  intro n
  induction n with
  | zero => intro k; simp [retryAux, InvokeResult.attempts]
  | succ m ih =>
    intro k
    cases h : gw k with
    | ok t =>
      rw [retryAux_ok gw k m t h]
      simp only [InvokeResult.attempts]
      omega
    | error e =>
      by_cases he : e.transient = true
      · cases m with
        | zero =>
          rw [retryAux_last gw k e h]
          simp only [InvokeResult.attempts]
          omega
        | succ s =>
          rw [retryAux_retry gw k s e h he]
          have := ih (k + 1)
          omega
      · rw [retryAux_nontransient gw k m e h (by simpa using he)]
        simp only [InvokeResult.attempts]
        omega

lemma retryAux_const_rateLimited (k : Nat) :
    ∀ n, retryAux (fun _ => .error .rateLimited) k (n + 1) =
      .failure .rateLimited (k + n + 1) := by
  intro n
  induction n generalizing k with
  | zero => exact retryAux_last _ k .rateLimited rfl
  | succ s ih =>
    rw [retryAux_retry _ k s .rateLimited rfl rfl, ih (k + 1)]
    congr 1
    omega

lemma retryAux_transient_before (gw : Nat → Except GatewayError String) :
    ∀ n k i, k ≤ i → i + 1 < (retryAux gw k n).attempts →
      ∃ e, gw i = .error e ∧ e.transient = true := by
  intro n
  induction n with
  | zero =>
    intro k i hk hi
    simp [retryAux, InvokeResult.attempts] at hi
    omega
  | succ m ih =>
    intro k i hk hi
    cases h : gw k with
    | ok t =>
      rw [retryAux_ok gw k m t h] at hi
      simp only [InvokeResult.attempts] at hi
      omega
    | error e =>
      by_cases he : e.transient = true
      · cases m with
        | zero =>
          rw [retryAux_last gw k e h] at hi
          simp only [InvokeResult.attempts] at hi
          omega
        | succ s =>
          rw [retryAux_retry gw k s e h he] at hi
          rcases Nat.lt_or_ge i (k + 1) with hik | hik
          · have : i = k := by omega
            exact ⟨e, this ▸ h, he⟩
          · exact ih (k + 1) i hik hi
      · rw [retryAux_nontransient gw k m e h (by simpa using he)] at hi
        simp only [InvokeResult.attempts] at hi
        omega

/-- C2: the Retrying Invoker performs at most the configured maximum attempt
count; it retries only after transient errors (RateLimited,
ProviderUnavailable, timeout); on a non-transient first error
(AuthenticationError, InvalidRequest, UnknownProvider) it fails after exactly
one attempt; a gateway that always returns AuthenticationError yields exactly
1 attempt, one that always returns RateLimited yields exactly the configured
maximum; the configured default maximum is 3. -/
theorem claim_C2_retrying_invoker :
    (∀ gw maxAttempts, (retryInvoke gw maxAttempts).attempts ≤ maxAttempts)
    ∧ (∀ gw maxAttempts e, 1 ≤ maxAttempts → gw 0 = .error e →
        e.transient = false → retryInvoke gw maxAttempts = .failure e 1)
    ∧ (∀ gw maxAttempts i, i + 1 < (retryInvoke gw maxAttempts).attempts →
        ∃ e, gw i = .error e ∧ e.transient = true)
    ∧ (∀ maxAttempts, 1 ≤ maxAttempts →
        retryInvoke (fun _ => .error .authenticationError) maxAttempts =
          .failure .authenticationError 1)
    ∧ (∀ maxAttempts, 1 ≤ maxAttempts →
        retryInvoke (fun _ => .error .rateLimited) maxAttempts =
          .failure .rateLimited maxAttempts)
    ∧ MAX_RETRIES = 3 := by
  refine ⟨?_, ?_, ?_, ?_, ?_, rfl⟩
  · intro gw maxAttempts
    simpa using retryAux_attempts_le gw maxAttempts 0
  · intro gw maxAttempts e hmax hg he
    obtain ⟨m, rfl⟩ : ∃ m, maxAttempts = m + 1 := ⟨maxAttempts - 1, by omega⟩
    exact retryAux_nontransient gw 0 m e hg he
  · intro gw maxAttempts i hi
    exact retryAux_transient_before gw maxAttempts 0 i (Nat.zero_le i) hi
  · intro maxAttempts hmax
    obtain ⟨m, rfl⟩ : ∃ m, maxAttempts = m + 1 := ⟨maxAttempts - 1, by omega⟩
    exact retryAux_nontransient (fun _ => .error .authenticationError) 0 m
      .authenticationError rfl rfl
  · intro maxAttempts hmax
    obtain ⟨m, rfl⟩ : ∃ m, maxAttempts = m + 1 := ⟨maxAttempts - 1, by omega⟩
    have := retryAux_const_rateLimited 0 m
    simpa [retryInvoke] using this

/-- C2 witness: with the maximum at its default of 3, an
always-AuthenticationError gateway performs exactly 1 attempt and an
always-RateLimited gateway performs exactly 3 attempts. -/
theorem claim_C2_witness :
    retryInvoke (fun _ => .error .authenticationError) 3 =
      .failure .authenticationError 1
    ∧ retryInvoke (fun _ => .error .rateLimited) 3 =
      .failure .rateLimited 3 :=
  ⟨claim_C2_retrying_invoker.2.2.2.1 3 (by decide),
   claim_C2_retrying_invoker.2.2.2.2.1 3 (by decide)⟩

lemma splitLastColon_eq :
    ∀ l pre suf, splitLastColon l = some (pre, suf) →
      l = pre ++ ':' :: suf := by
  intro l
  induction l with
  | nil => intro pre suf h; simp [splitLastColon] at h
  | cons c cs ih =>
    intro pre suf h
    rw [splitLastColon] at h
    split at h
    · next p1 p2 hs =>
      injection h with h'
      injection h' with ha hb
      subst ha
      subst hb
      rw [ih p1 p2 hs]
      rfl
    · next hs =>
      split at h
      · next hc =>
        subst hc
        injection h with h'
        injection h' with ha hb
        subst ha
        subst hb
        rfl
      · exact Option.noConfusion h

/-- C8: the Model Reference Parser splits on the last colon only when the
suffix is a recognized modifier for the base's family, otherwise returns the
whole string as the base with no modifier; "o4-mini:high" parses to base
"o4-mini" with modifier "high", "claude-3-7-sonnet-20250219" parses to that
full string as base with no modifier, and parsing fails with
InvalidModelReference exactly on the empty string. -/
theorem claim_C8_model_reference_parsing :
    parseModelRef "o4-mini:high" = .ok ⟨"o4-mini", some "high"⟩
    ∧ parseModelRef "claude-3-7-sonnet-20250219" =
        .ok ⟨"claude-3-7-sonnet-20250219", none⟩
    ∧ (∀ s, parseModelRef s = .error .invalidModelReference ↔ s = "")
    ∧ (∀ s b m, parseModelRef s = .ok ⟨b, some m⟩ →
        s = b ++ ":" ++ m ∧ recognizedModifier b m = true)
    ∧ (∀ s b, parseModelRef s = .ok ⟨b, none⟩ → b = s) := by
  refine ⟨by rfl, by rfl, ?_, ?_, ?_⟩
  · intro s
    constructor
    · intro h
      by_contra hs
      rw [parseModelRef, if_neg hs] at h
      split at h
      · exact Except.noConfusion h
      · split at h
        · exact Except.noConfusion h
        · exact Except.noConfusion h
    · intro h; subst h; rfl
  · intro s b m h
    by_cases hs : s = ""
    · rw [parseModelRef, if_pos hs] at h; exact Except.noConfusion h
    · rw [parseModelRef, if_neg hs] at h
      split at h
      · simp only [Except.ok.injEq, ModelReference.mk.injEq] at h
        exact absurd h.2 (by simp)
      · next pre suf hsplit =>
        split at h
        · next hr =>
          simp only [Except.ok.injEq, ModelReference.mk.injEq,
            Option.some.injEq] at h
          obtain ⟨hb, hm⟩ := h
          subst hb; subst hm
          refine ⟨?_, hr⟩
          have hd := splitLastColon_eq s.data pre suf hsplit
          apply String.ext
          rw [String.data_append, String.data_append]
          simpa using hd
        · simp only [Except.ok.injEq, ModelReference.mk.injEq] at h
          exact absurd h.2 (by simp)
  · intro s b h
    by_cases hs : s = ""
    · rw [parseModelRef, if_pos hs] at h; exact Except.noConfusion h
    · rw [parseModelRef, if_neg hs] at h
      split at h
      · simp only [Except.ok.injEq, ModelReference.mk.injEq] at h
        exact h.1.symm
      · split at h
        · simp only [Except.ok.injEq, ModelReference.mk.injEq] at h
          exact absurd h.2 (by simp)
        · simp only [Except.ok.injEq, ModelReference.mk.injEq] at h
          exact h.1.symm

/-- C8 witness: instantiating the round-trip clause at
"claude-3-7-sonnet:4k", whose suffix 4k is a recognized thinking-budget
modifier for the claude-3-7-sonnet family. -/
theorem claim_C8_witness :
    "claude-3-7-sonnet:4k" = "claude-3-7-sonnet" ++ ":" ++ "4k"
    ∧ recognizedModifier "claude-3-7-sonnet" "4k" = true :=
  claim_C8_model_reference_parsing.2.2.2.1 "claude-3-7-sonnet:4k"
    "claude-3-7-sonnet" "4k" (by rfl)

/-- C10: start.sh exits with status 1 and an error message when
OPENAI_API_KEY is unset or empty, likewise for ANTHROPIC_API_KEY, and never
checks GEMINI_API_KEY: with both required keys set non-empty the server
starts whatever GEMINI_API_KEY holds, including when it is absent. -/
theorem claim_C10_start_sh_guard :
    (∀ env : ShellEnv, isUnsetOrEmpty env.openaiApiKey = true →
      startSh env = .exited 1
        "Error: OPENAI_API_KEY environment variable must be set.")
    ∧ (∀ env : ShellEnv, isUnsetOrEmpty env.openaiApiKey = false →
        isUnsetOrEmpty env.anthropicApiKey = true →
        startSh env = .exited 1
          "Error: ANTHROPIC_API_KEY environment variable must be set.")
    ∧ (∀ o a g, isUnsetOrEmpty o = false → isUnsetOrEmpty a = false →
        startSh ⟨o, a, g⟩ = .serverStarted) := by
  refine ⟨?_, ?_, ?_⟩
  · intro env h; simp [startSh, h]
  · intro env h1 h2; simp [startSh, h1, h2]
  · intro o a g h1 h2; simp [startSh, h1, h2]

/-- C10 witness: with OPENAI_API_KEY unset the script exits with status 1,
and with both required keys set it starts the server even though
GEMINI_API_KEY is unset. -/
theorem claim_C10_witness :
    startSh ⟨none, some "sk-a", some "sk-g"⟩ = .exited 1
      "Error: OPENAI_API_KEY environment variable must be set."
    ∧ startSh ⟨some "sk-o", some "sk-a", none⟩ = .serverStarted :=
  ⟨claim_C10_start_sh_guard.1 ⟨none, some "sk-a", some "sk-g"⟩ (by decide),
   claim_C10_start_sh_guard.2.2 (some "sk-o") (some "sk-a") none
     (by decide) (by decide)⟩

lemma successes_idem (rs : List BoardResult) :
    successes (successes rs) = successes rs := by
  simp [successes, List.filter_filter]

lemma successes_partition_length (rs : List BoardResult) :
    (successes rs).length
      + (rs.filter (fun r => r.outcome.isSuccess = false)).length
      = rs.length := by
  induction rs with
  | nil => rfl
  | cons r rest ih =>
    cases h : r.outcome.isSuccess with
    | true =>
      simp [successes, List.filter_cons, h] at ih ⊢
      omega
    | false =>
      simp [successes, List.filter_cons, h] at ih ⊢
      omega

lemma concat_mem_decomp {α : Type} (f : α → String) (r : α) :
    ∀ l : List α, r ∈ l →
      ∃ a b, concatStrings (l.map f) = a ++ f r ++ b := by
  intro l
  induction l with
  | nil => intro h; exact absurd h (List.not_mem_nil r)
  | cons x xs ih =>
    intro h
    rcases List.mem_cons.mp h with h | h
    · subst h
      exact ⟨"", concatStrings (xs.map f),
        by rw [List.map_cons, concatStrings, String.empty_append]⟩
    · obtain ⟨a, b, hab⟩ := ih h
      exact ⟨f x ++ a, b,
        by rw [List.map_cons, concatStrings, hab]
           simp only [String.append_assoc]⟩

lemma ceoPrompt_of_successes (op : String) (rs : List BoardResult) :
    buildCeoPrompt op rs = buildCeoPrompt op (successes rs) := by
  rw [buildCeoPrompt, buildCeoPrompt, ceoBoardBlocks, ceoBoardBlocks,
    successes_idem]

/-- C4: when k of the N board calls fail, the CEO prompt holds exactly N−k
board-response blocks, each containing the identifier string of its
surviving model (positionally matched by `List.Forall₂`), and the whole
prompt equals the prompt assembled from the successful results alone, so
no text of any failed call reaches it. -/
theorem claim_C4_ceo_prompt_blocks :
    ∀ (op : String) (rs : List BoardResult),
      (ceoBoardBlocks rs).length =
        rs.length - (rs.filter (fun r => r.outcome.isSuccess = false)).length
      ∧ List.Forall₂ (fun (b : String) (r : BoardResult) =>
          ∃ pre post, b = pre ++ r.modelRef.raw ++ post)
        (ceoBoardBlocks rs) (successes rs)
      ∧ buildCeoPrompt op rs = buildCeoPrompt op (successes rs) := by
  intro op rs
  refine ⟨?_, ?_, ceoPrompt_of_successes op rs⟩
  · have := successes_partition_length rs
    rw [ceoBoardBlocks, List.length_map]
    omega
  · rw [ceoBoardBlocks]
    induction successes rs with
    | nil => exact List.Forall₂.nil
    | cons r rest ih =>
      refine List.Forall₂.cons ?_ ih
      exact ⟨"    <board-response>\n        <model-name>",
        "</model-name>\n        <response>" ++ r.outcome.textOrEmpty
          ++ "</response>\n    </board-response>\n",
        by rw [renderBoardBlock]
           simp only [String.append_assoc]⟩

/-- C6: the CEO Prompt Assembler is a pure, deterministic function — on
identical (original prompt, ordered board results) inputs it produces
byte-identical prompt text; no other inputs (time, randomness) occur in
its signature. -/
theorem claim_C6_ceo_prompt_deterministic :
    ∀ (op op2 : String) (rs rs2 : List BoardResult),
      op = op2 → rs = rs2 → buildCeoPrompt op rs = buildCeoPrompt op2 rs2 := by
  intro _ _ _ _ h1 h2
  rw [h1, h2]

/-- C6 witness: two invocations on an identical concrete input agree. -/
theorem claim_C6_witness :
    buildCeoPrompt "Should we enter the EV market?"
        [⟨⟨"gpt-4o", none⟩, .success "A" 1⟩] =
      buildCeoPrompt "Should we enter the EV market?"
        [⟨⟨"gpt-4o", none⟩, .success "A" 1⟩] :=
  claim_C6_ceo_prompt_deterministic "Should we enter the EV market?"
    "Should we enter the EV market?" [⟨⟨"gpt-4o", none⟩, .success "A" 1⟩]
    [⟨⟨"gpt-4o", none⟩, .success "A" 1⟩] rfl rfl

/-- C5 counterexample: the assembler does not escape structural markup
characters. At the concrete input with user purpose text "x<y" and board
output "a<b", both markup-bearing texts occur verbatim in the assembled
prompt (an escaping assembler would render "x&lt;y", which differs), and
the frontend request builder from page.tsx interpolates the raw "x<y"
unescaped as well. -/
theorem claim_C5_counterexample :
    ('<' ∈ "x<y".data ∧ '<' ∈ "a<b".data)
    ∧ (∃ pre post,
        buildCeoPrompt "x<y" [⟨⟨"gpt-4o", none⟩, .success "a<b" 1⟩] =
          pre ++ "x<y" ++ post)
    ∧ (∃ pre post,
        buildCeoPrompt "x<y" [⟨⟨"gpt-4o", none⟩, .success "a<b" 1⟩] =
          pre ++ "a<b" ++ post)
    ∧ (∃ pre post, frontendRequestXml "x<y" ["f"] ["gpt-4o"] "m" "r" =
          pre ++ "x<y" ++ post)
    ∧ xmlEscape "x<y" = "x&lt;y" ∧ "x<y" ≠ xmlEscape "x<y" := by
  refine ⟨by decide, ?_, ?_, ?_, by rfl, by decide⟩
  · exact ⟨ceoPromptHeader ++ "<original-question>",
      "</original-question>\n<board-decisions>\n"
        ++ concatStrings (ceoBoardBlocks
            [⟨⟨"gpt-4o", none⟩, .success "a<b" 1⟩])
        ++ "</board-decisions>",
      by rw [buildCeoPrompt]
         simp only [String.append_assoc]⟩
  · refine ⟨ceoPromptHeader ++ "<original-question>" ++ "x<y"
        ++ "</original-question>\n<board-decisions>\n"
        ++ "    <board-response>\n        <model-name>" ++ "gpt-4o"
        ++ "</model-name>\n        <response>",
      "</response>\n    </board-response>\n" ++ "</board-decisions>", ?_⟩
    have hb : ceoBoardBlocks [⟨⟨"gpt-4o", none⟩, .success "a<b" 1⟩] =
        [renderBoardBlock ⟨⟨"gpt-4o", none⟩, .success "a<b" 1⟩] := by
      simp [ceoBoardBlocks, successes, List.filter_cons,
        InvokeResult.isSuccess]
    have hraw : (ModelReference.mk "gpt-4o" none).raw = "gpt-4o" := rfl
    have htext : (InvokeResult.success "a<b" 1).textOrEmpty = "a<b" := rfl
    rw [buildCeoPrompt, hb]
    simp only [concatStrings, renderBoardBlock, hraw, htext]
    simp only [String.append_assoc, String.append_empty,
      String.empty_append]
  · exact ⟨"<root><purpose>",
      "</purpose><factors>" ++ "f" ++ "</factors><board-models>"
        ++ "<model name=\"gpt-4o\" />"
        ++ "</board-models><ceo-model name=\"" ++ "m"
        ++ "\" /><decision-resources>" ++ "r"
        ++ "</decision-resources></root>", by rfl⟩

/-- C5 amended: the CEO Prompt Assembler interpolates the free-form user
text and every successful board output into the prompt verbatim, with no
escaping or encoding, so the assembled document is well-formed only when
those texts contain no structural markup characters. -/
theorem claim_C5_verbatim_interpolation :
    ∀ (op : String) (rs : List BoardResult),
      (∃ pre post, buildCeoPrompt op rs = pre ++ op ++ post)
      ∧ ∀ r ∈ successes rs, ∃ pre post,
          buildCeoPrompt op rs = pre ++ r.outcome.textOrEmpty ++ post := by
  intro op rs
  constructor
  · exact ⟨ceoPromptHeader ++ "<original-question>",
      "</original-question>\n<board-decisions>\n"
        ++ concatStrings (ceoBoardBlocks rs) ++ "</board-decisions>",
      by rw [buildCeoPrompt]
         simp only [String.append_assoc]⟩
  · intro r hr
    obtain ⟨a, b, hab⟩ := concat_mem_decomp renderBoardBlock r
      (successes rs) hr
    refine ⟨ceoPromptHeader ++ "<original-question>" ++ op
        ++ "</original-question>\n<board-decisions>\n" ++ a
        ++ "    <board-response>\n        <model-name>" ++ r.modelRef.raw
        ++ "</model-name>\n        <response>",
      "</response>\n    </board-response>\n" ++ b ++ "</board-decisions>",
      ?_⟩
    rw [buildCeoPrompt, ceoBoardBlocks, hab, renderBoardBlock]
    simp only [String.append_assoc]

/-- C5 amended-claim witness: at a concrete input the purpose text and the
successful board output both appear verbatim in the prompt. -/
theorem claim_C5_witness :
    (∃ pre post,
      buildCeoPrompt "x<y" [⟨⟨"gpt-4o", none⟩, .success "a<b" 1⟩] =
        pre ++ "x<y" ++ post)
    ∧ ∃ pre post,
        buildCeoPrompt "x<y" [⟨⟨"gpt-4o", none⟩, .success "a<b" 1⟩] =
          pre ++ "a<b" ++ post :=
  ⟨(claim_C5_verbatim_interpolation "x<y"
      [⟨⟨"gpt-4o", none⟩, .success "a<b" 1⟩]).1,
   (claim_C5_verbatim_interpolation "x<y"
      [⟨⟨"gpt-4o", none⟩, .success "a<b" 1⟩]).2
      ⟨⟨"gpt-4o", none⟩, .success "a<b" 1⟩ (by decide)⟩

lemma processDecision_allFail
    (gw : ModelReference → String → Nat → Except GatewayError String)
    (maxAttempts : Nat) (corrId : String) (req : DecisionRequest)
    (h : successes (boardPhase gw maxAttempts req) = []) :
    processDecision gw maxAttempts corrId req =
      ⟨⟨corrId, req, boardPhase gw maxAttempts req, none, none,
        .failed "board" "AllBoardMembersFailed"⟩, boardCallRecords req⟩ := by
  simp only [processDecision]
  rw [if_pos (by rw [h]; rfl)]

lemma processDecision_ceoOk
    (gw : ModelReference → String → Nat → Except GatewayError String)
    (maxAttempts : Nat) (corrId : String) (req : DecisionRequest)
    (t : String) (a : Nat)
    (hne : (successes (boardPhase gw maxAttempts req)).isEmpty = false)
    (hceo : retryInvoke (gw req.ceoModel (buildCeoPrompt
        (buildBoardPrompt req) (boardPhase gw maxAttempts req))) maxAttempts
      = .success t a) :
    processDecision gw maxAttempts corrId req =
      ⟨⟨corrId, req, boardPhase gw maxAttempts req,
        some (buildCeoPrompt (buildBoardPrompt req)
          (boardPhase gw maxAttempts req)),
        some t, .ceoComplete⟩,
       boardCallRecords req ++ [⟨.ceo, req.ceoModel,
         buildCeoPrompt (buildBoardPrompt req)
           (boardPhase gw maxAttempts req)⟩]⟩ := by
  simp only [processDecision]
  rw [if_neg (by simp [hne]), hceo]

lemma processDecision_ceoFail
    (gw : ModelReference → String → Nat → Except GatewayError String)
    (maxAttempts : Nat) (corrId : String) (req : DecisionRequest)
    (e : GatewayError) (a : Nat)
    (hne : (successes (boardPhase gw maxAttempts req)).isEmpty = false)
    (hceo : retryInvoke (gw req.ceoModel (buildCeoPrompt
        (buildBoardPrompt req) (boardPhase gw maxAttempts req))) maxAttempts
      = .failure e a) :
    processDecision gw maxAttempts corrId req =
      ⟨⟨corrId, req, boardPhase gw maxAttempts req,
        some (buildCeoPrompt (buildBoardPrompt req)
          (boardPhase gw maxAttempts req)),
        none, .failed "ceo" e.describe⟩,
       boardCallRecords req ++ [⟨.ceo, req.ceoModel,
         buildCeoPrompt (buildBoardPrompt req)
           (boardPhase gw maxAttempts req)⟩]⟩ := by
  simp only [processDecision]
  rw [if_neg (by simp [hne]), hceo]

/-- C3: if every board call of a run fails, the run ends in
Failed{stage="board"}, no CEO call is issued (every issued call belongs to
the board phase), the CEO prompt and decision stay absent and no
ceo_prompt.xml or ceo_decision.md is written; conversely, if at least one
board call succeeds, a CEO call is issued and its prompt is assembled from
the successful results only. -/
theorem claim_C3_all_board_failures :
    (∀ gw maxAttempts corrId req,
      (∀ r ∈ (processDecision gw maxAttempts corrId req).run.boardResults,
        r.outcome.isSuccess = false) →
      (processDecision gw maxAttempts corrId req).run.status =
          .failed "board" "AllBoardMembersFailed"
      ∧ (processDecision gw maxAttempts corrId req).run.ceoPrompt = none
      ∧ (processDecision gw maxAttempts corrId req).run.ceoDecision = none
      ∧ (∀ c ∈ (processDecision gw maxAttempts corrId req).calls,
          c.phase = .board)
      ∧ writeSequence (processDecision gw maxAttempts corrId req).run = [])
    ∧ (∀ gw maxAttempts corrId req,
      (∃ r ∈ (processDecision gw maxAttempts corrId req).run.boardResults,
        r.outcome.isSuccess = true) →
      (∃ c ∈ (processDecision gw maxAttempts corrId req).calls,
        c.phase = .ceo)
      ∧ (processDecision gw maxAttempts corrId req).run.ceoPrompt =
          some (buildCeoPrompt (buildBoardPrompt req) (successes
            ((processDecision gw maxAttempts corrId req).run.boardResults)))) := by
  constructor
  · intro gw maxAttempts corrId req h
    rw [processDecision_boardResults] at h
    have hnil : successes (boardPhase gw maxAttempts req) = [] := by
      rw [successes, List.filter_eq_nil_iff]
      intro r hr
      simp [h r hr]
    rw [processDecision_allFail gw maxAttempts corrId req hnil]
    refine ⟨rfl, rfl, rfl, ?_, rfl⟩
    intro c hc
    rw [boardCallRecords] at hc
    obtain ⟨m, _, rfl⟩ := List.mem_map.mp hc
    rfl
  · intro gw maxAttempts corrId req h
    rw [processDecision_boardResults] at h
    obtain ⟨r, hr, hsucc⟩ := h
    have hmem : r ∈ successes (boardPhase gw maxAttempts req) :=
      List.mem_filter.mpr ⟨hr, hsucc⟩
    have hne : (successes (boardPhase gw maxAttempts req)).isEmpty = false := by
      cases hsl : successes (boardPhase gw maxAttempts req) with
      | nil => rw [hsl] at hmem; exact absurd hmem (List.not_mem_nil r)
      | cons a l => rfl
    cases hceo : retryInvoke (gw req.ceoModel (buildCeoPrompt
        (buildBoardPrompt req) (boardPhase gw maxAttempts req)))
        maxAttempts with
    | success t a =>
      rw [processDecision_ceoOk gw maxAttempts corrId req t a hne hceo]
      refine ⟨⟨⟨.ceo, req.ceoModel, buildCeoPrompt (buildBoardPrompt req)
        (boardPhase gw maxAttempts req)⟩,
        List.mem_append_right _ (List.mem_singleton_self _), rfl⟩, ?_⟩
      exact congrArg some (ceoPrompt_of_successes (buildBoardPrompt req)
        (boardPhase gw maxAttempts req))
    | failure e a =>
      rw [processDecision_ceoFail gw maxAttempts corrId req e a hne hceo]
      refine ⟨⟨⟨.ceo, req.ceoModel, buildCeoPrompt (buildBoardPrompt req)
        (boardPhase gw maxAttempts req)⟩,
        List.mem_append_right _ (List.mem_singleton_self _), rfl⟩, ?_⟩
      exact congrArg some (ceoPrompt_of_successes (buildBoardPrompt req)
        (boardPhase gw maxAttempts req))

/-- C3 witness: with an all-failing gateway the concrete run ends failed at
the board stage and writes nothing; with an all-succeeding gateway a CEO
call is issued. -/
theorem claim_C3_witness :
    (processDecision failGw 3 "u" demoRequest).run.status =
      .failed "board" "AllBoardMembersFailed"
    ∧ writeSequence (processDecision failGw 3 "u" demoRequest).run = []
    ∧ ∃ c ∈ (processDecision okGw 3 "u" demoRequest).calls,
        c.phase = .ceo :=
  ⟨(claim_C3_all_board_failures.1 failGw 3 "u" demoRequest (by decide)).1,
   (claim_C3_all_board_failures.1 failGw 3 "u" demoRequest
      (by decide)).2.2.2.2,
   (claim_C3_all_board_failures.2 okGw 3 "u" demoRequest (by decide)).1⟩

lemma boardArtifactName_head (r : BoardResult) :
    ((boardArtifactName r).data).head? = some 'b' := rfl

lemma mem_board_names_head {s : String} {B : List BoardResult}
    (hs : s ∈ B.map boardArtifactName) : s.data.head? = some 'b' := by
  obtain ⟨r, _, rfl⟩ := List.mem_map.mp hs
  exact boardArtifactName_head r

lemma ceo_decision_not_in_board (B : List BoardResult) :
    "ceo_decision.md" ∉ B.map boardArtifactName := by
  intro h
  exact absurd (mem_board_names_head h) (by decide)

lemma ceo_prompt_not_in_board (B : List BoardResult) :
    "ceo_prompt.xml" ∉ B.map boardArtifactName := by
  intro h
  exact absurd (mem_board_names_head h) (by decide)

lemma prefix_snoc_eq {α : Type} (init pre t : List α) (x : α)
    (heq : pre ++ t = init ++ [x]) (hx : x ∈ pre) (hninit : x ∉ init) :
    pre = init ++ [x] := by
  rcases List.eq_nil_or_concat t with rfl | ⟨t', y, rfl⟩
  · simpa using heq
  · rw [List.concat_eq_append, ← List.append_assoc] at heq
    obtain ⟨h1, _⟩ := List.append_inj' heq (by rfl)
    exact absurd (h1 ▸ List.mem_append_left t' hx) hninit

lemma writeSequence_ceoComplete (run : DecisionRun)
    (h : run.status = .ceoComplete) :
    writeSequence run = (successes run.boardResults).map boardArtifactName
      ++ ["ceo_prompt.xml", "ceo_decision.md"] := by
  simp only [writeSequence, h]

lemma writeSequence_cases (run : DecisionRun) :
    writeSequence run = []
    ∨ (run.status = .ceoComplete
        ∧ writeSequence run =
          (successes run.boardResults).map boardArtifactName
            ++ ["ceo_prompt.xml", "ceo_decision.md"]) := by
  cases hst : run.status with
  | ceoComplete => exact Or.inr ⟨rfl, writeSequence_ceoComplete run hst⟩
  | pending => exact Or.inl (by simp only [writeSequence, hst])
  | boardComplete => exact Or.inl (by simp only [writeSequence, hst])
  | failed s r => exact Or.inl (by simp only [writeSequence, hst])

/-- C9: the Artifact Writer emits the CEO decision artifact last: in a
completed run the write sequence ends with ceo_decision.md, and any prefix
of the write sequence (an observable intermediate state of the run's
directory) that already contains ceo_decision.md contains every board
artifact of the run. -/
theorem claim_C9_decision_artifact_last :
    (∀ run : DecisionRun, run.status = .ceoComplete →
      (writeSequence run).getLast? = some "ceo_decision.md")
    ∧ (∀ (run : DecisionRun) (pre : List String),
        pre <+: writeSequence run → "ceo_decision.md" ∈ pre →
        ∀ r ∈ successes run.boardResults, boardArtifactName r ∈ pre) := by
  constructor
  · intro run h
    rw [writeSequence_ceoComplete run h,
      show (successes run.boardResults).map boardArtifactName
          ++ ["ceo_prompt.xml", "ceo_decision.md"]
        = ((successes run.boardResults).map boardArtifactName
          ++ ["ceo_prompt.xml"]) ++ ["ceo_decision.md"] by simp,
      List.getLast?_concat]
  · intro run pre hpre hmem r hr
    rcases writeSequence_cases run with hseq | ⟨_, hseq⟩
    · rw [hseq] at hpre
      rw [List.prefix_nil.mp hpre] at hmem
      exact absurd hmem (List.not_mem_nil _)
    · rw [hseq] at hpre
      obtain ⟨t, ht⟩ := hpre
      rw [show (successes run.boardResults).map boardArtifactName
          ++ ["ceo_prompt.xml", "ceo_decision.md"]
        = ((successes run.boardResults).map boardArtifactName
          ++ ["ceo_prompt.xml"]) ++ ["ceo_decision.md"] by simp] at ht
      have hninit : "ceo_decision.md" ∉
          (successes run.boardResults).map boardArtifactName
            ++ ["ceo_prompt.xml"] := by
        intro h2
        rcases List.mem_append.mp h2 with h3 | h3
        · exact ceo_decision_not_in_board _ h3
        · exact absurd h3 (by decide)
      rw [prefix_snoc_eq _ pre t _ ht hmem hninit]
      exact List.mem_append_left _ (List.mem_append_left _
        (List.mem_map_of_mem boardArtifactName hr))

/-- C9 witness: in the concrete successful run the write sequence ends with
ceo_decision.md, and the full sequence (the only prefix containing the
decision) contains the board artifact of gpt-4o. -/
theorem claim_C9_witness :
    (writeSequence (processDecision okGw 3 "u" demoRequest).run).getLast? =
      some "ceo_decision.md"
    ∧ boardArtifactName ⟨⟨"gpt-4o", none⟩, .success "DECISION" 1⟩ ∈
        writeSequence (processDecision okGw 3 "u" demoRequest).run :=
  ⟨claim_C9_decision_artifact_last.1
      (processDecision okGw 3 "u" demoRequest).run (by decide),
    claim_C9_decision_artifact_last.2
      (processDecision okGw 3 "u" demoRequest).run
      (writeSequence (processDecision okGw 3 "u" demoRequest).run)
      (List.prefix_refl _) (by decide)
      ⟨⟨"gpt-4o", none⟩, .success "DECISION" 1⟩ (by decide)⟩

lemma processDecision_corrId
    (gw : ModelReference → String → Nat → Except GatewayError String)
    (maxAttempts : Nat) (corrId : String) (req : DecisionRequest) :
    (processDecision gw maxAttempts corrId req).run.correlationId =
      corrId := by
  simp only [processDecision]
  split
  · rfl
  · split <;> rfl

lemma genCorrelationId_inj (s1 s2 : Nat)
    (h : genCorrelationId s1 = genCorrelationId s2) : s1 = s2 := by
  have hlen := congrArg (fun s : String => s.data.length) h
  simp only [genCorrelationId, List.length_replicate] at hlen
  omega

lemma runDirectory_ne (root id1 id2 : String) (h : id1 ≠ id2) :
    runDirectory root id1 ≠ runDirectory root id2 := by
  intro he
  apply h
  apply String.ext
  have hd := congrArg String.data he
  simp only [runDirectory, String.data_append] at hd
  exact List.append_cancel_left hd

lemma charsStartWith_append_left (l a b : List Char) :
    charsStartWith (l ++ a) (l ++ b) = charsStartWith a b := by
  induction l with
  | nil => rfl
  | cons c cs ih => simp [charsStartWith, ih]

lemma replicate_u_slash_not_prefix (m n : Nat) :
    charsStartWith (List.replicate m 'u')
      (List.replicate n 'u' ++ ['/']) = false := by
  induction n generalizing m with
  | zero =>
    cases m with
    | zero => rfl
    | succ k => rfl
  | succ j ih =>
    cases m with
    | zero => rfl
    | succ k =>
      simpa [charsStartWith, List.replicate_succ] using ih k

/-- C7 amended: for every run that completes, the run carries exactly the
one correlation identifier it was given, its directory holds exactly one
ceo_decision.md and one ceo_prompt.xml, every successful board call's
artifact is present, and board artifact files exist only for board calls
that produced a usable result — every file of the run other than the CEO
prompt and decision is the artifact of some successful board call;
distinct request sequence numbers yield distinct correlation identifiers
whose directories are distinct and not nested in one another. -/
theorem claim_C7_run_artifact_uniqueness :
    (∀ gw maxAttempts corrId req,
      (processDecision gw maxAttempts corrId req).run.status =
        .ceoComplete →
      (processDecision gw maxAttempts corrId req).run.correlationId = corrId
      ∧ (writeSequence
          (processDecision gw maxAttempts corrId req).run).count
          "ceo_decision.md" = 1
      ∧ (writeSequence
          (processDecision gw maxAttempts corrId req).run).count
          "ceo_prompt.xml" = 1
      ∧ (∀ r ∈ successes
            (processDecision gw maxAttempts corrId req).run.boardResults,
          boardArtifactName r ∈
            writeSequence (processDecision gw maxAttempts corrId req).run)
      ∧ ∀ name ∈ writeSequence (processDecision gw maxAttempts corrId req).run,
          name = "ceo_prompt.xml" ∨ name = "ceo_decision.md"
          ∨ ∃ r ∈ successes
              (processDecision gw maxAttempts corrId req).run.boardResults,
              name = boardArtifactName r)
    ∧ (∀ s1 s2 : Nat, s1 ≠ s2 →
        genCorrelationId s1 ≠ genCorrelationId s2
        ∧ ∀ root : String,
            runDirectory root (genCorrelationId s1) ≠
              runDirectory root (genCorrelationId s2)
            ∧ charsStartWith
                (runDirectory root (genCorrelationId s2)).data
                (runDirectory root (genCorrelationId s1) ++ "/").data
              = false) := by
  constructor
  · intro gw maxAttempts corrId req hst
    refine ⟨processDecision_corrId gw maxAttempts corrId req, ?_, ?_, ?_, ?_⟩
    · rw [writeSequence_ceoComplete _ hst, List.count_append,
        List.count_eq_zero.mpr (ceo_decision_not_in_board _)]
      decide
    · rw [writeSequence_ceoComplete _ hst, List.count_append,
        List.count_eq_zero.mpr (ceo_prompt_not_in_board _)]
      decide
    · intro r hr
      rw [writeSequence_ceoComplete _ hst]
      exact List.mem_append_left _ (List.mem_map_of_mem boardArtifactName hr)
    · intro name hname
      rw [writeSequence_ceoComplete _ hst] at hname
      rcases List.mem_append.mp hname with h1 | h1
      · obtain ⟨r, hr, rfl⟩ := List.mem_map.mp h1
        exact Or.inr (Or.inr ⟨r, hr, rfl⟩)
      · rcases List.mem_cons.mp h1 with rfl | h2
        · exact Or.inl rfl
        · rcases List.mem_cons.mp h2 with rfl | h3
          · exact Or.inr (Or.inl rfl)
          · exact absurd h3 (List.not_mem_nil name)
  · intro s1 s2 hne
    have hid : genCorrelationId s1 ≠ genCorrelationId s2 :=
      fun h => hne (genCorrelationId_inj s1 s2 h)
    refine ⟨hid, fun root => ⟨runDirectory_ne root _ _ hid, ?_⟩⟩
    have hslash : "/".data = ['/'] := rfl
    have hgen : ∀ s, (genCorrelationId s).data =
        List.replicate (s + 1) 'u' := fun s => rfl
    simp only [runDirectory, String.data_append, List.append_assoc,
      hslash, hgen]
    rw [charsStartWith_append_left, charsStartWith_append_left]
    exact replicate_u_slash_not_prefix _ _

/-- C7 counterexample: an accepted request all of whose board calls fail
produces a run with no CEO decision artifact, so "exactly one CEO decision
artifact exists per accepted request" fails as stated. -/
theorem claim_C7_counterexample :
    (processDecision failGw 3 (genCorrelationId 0) demoRequest).run.status =
      .failed "board" "AllBoardMembersFailed"
    ∧ (writeSequence
        (processDecision failGw 3 (genCorrelationId 0) demoRequest).run).count
        "ceo_decision.md" = 0 :=
  ⟨by rfl, by rfl⟩

/-- C7 witness: in the concrete successful run the decision artifact occurs
exactly once, the file board_claude-x.md present in the run's directory is
the artifact of a successful board call, and sequence numbers 0 and 1 give
distinct identifiers with distinct, non-nested directories. -/
theorem claim_C7_witness :
    (writeSequence (processDecision okGw 3 "u" demoRequest).run).count
      "ceo_decision.md" = 1
    ∧ ("board_claude-x.md" = "ceo_prompt.xml"
        ∨ "board_claude-x.md" = "ceo_decision.md"
        ∨ ∃ r ∈ successes
            (processDecision okGw 3 "u" demoRequest).run.boardResults,
            "board_claude-x.md" = boardArtifactName r)
    ∧ genCorrelationId 0 ≠ genCorrelationId 1
    ∧ runDirectory "/backend/output" (genCorrelationId 0) ≠
        runDirectory "/backend/output" (genCorrelationId 1) :=
  ⟨(claim_C7_run_artifact_uniqueness.1 okGw 3 "u" demoRequest
      (by decide)).2.1,
   (claim_C7_run_artifact_uniqueness.1 okGw 3 "u" demoRequest
      (by decide)).2.2.2.2 "board_claude-x.md" (by decide),
   (claim_C7_run_artifact_uniqueness.2 0 1 (by decide)).1,
   ((claim_C7_run_artifact_uniqueness.2 0 1 (by decide)).2
      "/backend/output").1⟩

end RelyAI
